import Mathlib

/-!
# Formal model of the mog-backend plan lifecycle (src/server.js)

A shallow embedding, in Lean 4, of the core components of the mog-backend
server: the tier resolver, the AI physique-analysis normalizer, the
complete-day handler of the training-plan state machine (including week
rollover), the plan formatting / step-repair passes of the plan generator,
the identity-consistency gate of the scan endpoint, and the background
exercise-image queue.

Modelling conventions:
* JavaScript numbers that the claims only compare or bound are modelled as
  `Int`; the user's `mogScore`, which accumulates fractional increments, is
  modelled as `Rat` (exact arithmetic in place of IEEE floats; the claims
  below depend only on whether an increment happens, never on rounding).
* A possibly-absent (`undefined`/`null`) JavaScript value is an `Option`.
* The JavaScript `x || d` default pattern on numbers treats `0` as falsy;
  it is modelled by `jsOr` below.  The `??` (nullish) operator only
  replaces absent values and is modelled by `Option.getD` / pass-through.
* Provider (OpenAI) calls are modelled by explicit outcome parameters:
  the handler is a pure function of the provider's answer.
-/

namespace Mog

/-- JavaScript `x || d` for an optional number: both an absent value and a
zero value fall back to the default `d`. -/
def jsOr (x : Option Int) (d : Int) : Int :=
  match x with
  | none => d
  | some v => if v = 0 then d else v

/-- JavaScript `Math.max(0, Math.min(100, x))`. -/
def clamp100 (x : Int) : Int := max 0 (min 100 x)

/-! ## Tier system (src/server.js lines 2305-2324) -/

/-- One entry of the `TIERS` table. -/
structure Tier where
  name : String
  minScore : Int
  type : String
deriving DecidableEq, Repr

/-- The `TIERS` constant: ordered from highest threshold to lowest. -/
def TIERS : List Tier := [
  { name := "Final Boss Mogger", minScore := 97, type := "mythic" },
  { name := "Mogger", minScore := 93, type := "legendary" },
  { name := "Gigachad", minScore := 88, type := "epic" },
  { name := "Chad", minScore := 78, type := "rare" },
  { name := "Chadlite", minScore := 68, type := "uncommon" },
  { name := "High-Tier Normie", minScore := 55, type := "common" },
  { name := "Normie", minScore := 45, type := "common" },
  { name := "Low-Tier Normie", minScore := 35, type := "common" },
  { name := "Gym Bro", minScore := 0, type := "starter" }]

/-- The `for (const tier of TIERS)` loop body of `getTierFromScore`:
returns the first tier whose `minScore` the score reaches. -/
def findTier : List Tier → Int → Option String
  | [], _ => none
  | t :: rest, score => if t.minScore ≤ score then some t.name else findTier rest score

/-- `getTierFromScore`: scan `TIERS` top-down, falling back to `'Gym Bro'`. -/
def getTierFromScore (score : Int) : String :=
  (findTier TIERS score).getD "Gym Bro"

/-- The position of a tier label in the ordered ladder, lowest = 0.  This is
the order on `TierLabel` that the specification's monotonicity property
refers to (the reverse of the index in `TIERS`). -/
def tierRank (name : String) : Nat :=
  if name = "Final Boss Mogger" then 8
  else if name = "Mogger" then 7
  else if name = "Gigachad" then 6
  else if name = "Chad" then 5
  else if name = "Chadlite" then 4
  else if name = "High-Tier Normie" then 3
  else if name = "Normie" then 2
  else if name = "Low-Tier Normie" then 1
  else 0

/-- Closed form of `getTierFromScore` as a threshold chain. -/
theorem getTierFromScore_eq (s : Int) :
    getTierFromScore s =
      if 97 ≤ s then "Final Boss Mogger"
      else if 93 ≤ s then "Mogger"
      else if 88 ≤ s then "Gigachad"
      else if 78 ≤ s then "Chad"
      else if 68 ≤ s then "Chadlite"
      else if 55 ≤ s then "High-Tier Normie"
      else if 45 ≤ s then "Normie"
      else if 35 ≤ s then "Low-Tier Normie"
      else "Gym Bro" := by
  simp only [getTierFromScore, TIERS, findTier]
  split_ifs <;> rfl

/-- How many of a descending threshold list a score has reached, counted so
that the result is the rank in the ladder (the proof-side view of the
`TIERS` scan). -/
def rankOfAux : List Int → Int → Nat
  | [], _ => 0
  | t :: rest, s => if t ≤ s then rest.length + 1 else rankOfAux rest s

/-- The descending `minScore` thresholds of the non-bottom tiers. -/
def tierThresholds : List Int := [97, 93, 88, 78, 68, 55, 45, 35]

theorem rankOfAux_le_length (l : List Int) (s : Int) : rankOfAux l s ≤ l.length := by
  induction l with
  | nil => simp [rankOfAux]
  | cons t rest ih =>
    by_cases h : t ≤ s
    · simp [rankOfAux, h]
    · simp only [rankOfAux, if_neg h, List.length_cons]
      omega

theorem rankOfAux_mono (l : List Int) (a b : Int) (hab : a ≤ b) :
    rankOfAux l a ≤ rankOfAux l b := by
  induction l with
  | nil => simp [rankOfAux]
  | cons t rest ih =>
    by_cases ha : t ≤ a
    · have hb : t ≤ b := le_trans ha hab
      simp [rankOfAux, ha, hb]
    · by_cases hb : t ≤ b
      · simp only [rankOfAux, if_neg ha, if_pos hb]
        have := rankOfAux_le_length rest a
        omega
      · simpa only [rankOfAux, if_neg ha, if_neg hb] using ih

/-- The rank reached by a score equals the threshold count. -/
theorem tierRank_getTierFromScore (s : Int) :
    tierRank (getTierFromScore s) = rankOfAux tierThresholds s := by
  rw [getTierFromScore_eq]
  simp only [tierThresholds, rankOfAux]
  split_ifs <;> rfl

/-- Clamping a score into `[0,100]` does not change its tier: scores below 0
already fall through every threshold except the bottom one, and every score
of at least 97 is top tier. -/
theorem getTierFromScore_clamp (s : Int) :
    getTierFromScore (clamp100 s) = getTierFromScore s := by
  rcases le_or_lt s 0 with h0 | h0
  · have hc : clamp100 s = 0 := by unfold clamp100; omega
    rw [hc]
    have h1 : getTierFromScore 0 = "Gym Bro" := rfl
    rw [h1, getTierFromScore_eq]
    split_ifs <;> first | rfl | omega
  · rcases le_or_lt s 100 with h1 | h1
    · have hc : clamp100 s = s := by unfold clamp100; omega
      rw [hc]
    · have hc : clamp100 s = 100 := by unfold clamp100; omega
      rw [hc]
      have h2 : getTierFromScore 100 = "Final Boss Mogger" := rfl
      rw [h2, getTierFromScore_eq]
      split_ifs <;> first | rfl | omega

/-- C5: `getTierFromScore` is total and deterministic on `[0,100]`, monotone
(a lower score never maps to a higher tier), its thresholds cover `[0,100]`
with no gaps (every score in range is at or above the threshold of the tier
it maps to, and the lowest tier's threshold is 0), and it takes the stated
boundary values 82 ↦ Chad, 40 ↦ Low-Tier Normie, 35 ↦ Low-Tier Normie,
34 ↦ Gym Bro. -/
theorem C5_tierFor_monotone_total_boundaries :
    (∀ a b : Int, 0 ≤ a → a < b → b ≤ 100 →
      tierRank (getTierFromScore a) ≤ tierRank (getTierFromScore b))
    ∧ (∀ s : Int, 0 ≤ s → s ≤ 100 →
        ∃ t, t ∈ TIERS ∧ getTierFromScore s = t.name ∧ t.minScore ≤ s)
    ∧ (∃ t, t ∈ TIERS ∧ t.name = "Gym Bro" ∧ t.minScore = 0)
    ∧ getTierFromScore 82 = "Chad"
    ∧ getTierFromScore 40 = "Low-Tier Normie"
    ∧ getTierFromScore 35 = "Low-Tier Normie"
    ∧ getTierFromScore 34 = "Gym Bro" := by
  refine ⟨?_, ?_, ?_, by decide, by decide, by decide, by decide⟩
  · intro a b _ hab _
    rw [tierRank_getTierFromScore, tierRank_getTierFromScore]
    exact rankOfAux_mono tierThresholds a b (le_of_lt hab)
  · intro s hs _
    rw [getTierFromScore_eq]
    split_ifs
    · exact ⟨{ name := "Final Boss Mogger", minScore := 97, type := "mythic" },
        by decide, rfl, show (97 : Int) ≤ s by omega⟩
    · exact ⟨{ name := "Mogger", minScore := 93, type := "legendary" },
        by decide, rfl, show (93 : Int) ≤ s by omega⟩
    · exact ⟨{ name := "Gigachad", minScore := 88, type := "epic" },
        by decide, rfl, show (88 : Int) ≤ s by omega⟩
    · exact ⟨{ name := "Chad", minScore := 78, type := "rare" },
        by decide, rfl, show (78 : Int) ≤ s by omega⟩
    · exact ⟨{ name := "Chadlite", minScore := 68, type := "uncommon" },
        by decide, rfl, show (68 : Int) ≤ s by omega⟩
    · exact ⟨{ name := "High-Tier Normie", minScore := 55, type := "common" },
        by decide, rfl, show (55 : Int) ≤ s by omega⟩
    · exact ⟨{ name := "Normie", minScore := 45, type := "common" },
        by decide, rfl, show (45 : Int) ≤ s by omega⟩
    · exact ⟨{ name := "Low-Tier Normie", minScore := 35, type := "common" },
        by decide, rfl, show (35 : Int) ≤ s by omega⟩
    · exact ⟨{ name := "Gym Bro", minScore := 0, type := "starter" },
        by decide, rfl, show (0 : Int) ≤ s by omega⟩
  · exact ⟨{ name := "Gym Bro", minScore := 0, type := "starter" }, by decide, rfl, rfl⟩

/-- Witness for C5 at concrete scores: 10 < 90 and the monotonicity and
coverage conjuncts hold there. -/
theorem C5_tierFor_monotone_total_boundaries_witness :
    tierRank (getTierFromScore 10) ≤ tierRank (getTierFromScore 90)
    ∧ ∃ t, t ∈ TIERS ∧ getTierFromScore 40 = t.name ∧ t.minScore ≤ 40 :=
  ⟨C5_tierFor_monotone_total_boundaries.1 10 90 (by decide) (by decide) (by decide),
   C5_tierFor_monotone_total_boundaries.2.1 40 (by decide) (by decide)⟩

/-! ## Analysis Normalizer (src/server.js lines 2781-2816, `analyzePhysiqueWithAI`) -/

/-- The `muscleBreakdown` object: each group is a number or `null`
(`null` marks a group the provider could not observe). -/
structure MuscleBreakdown where
  chest : Option Int
  shoulders : Option Int
  back : Option Int
  arms : Option Int
  legs : Option Int
  core : Option Int
  leanness : Option Int
deriving DecidableEq, Repr

/-- The raw, schema-free JSON object parsed from the vision provider.
Absent fields are `none`; the provider may send any numbers. -/
structure RawAnalysis where
  isValidPhysique : Option Bool
  errorMessage : Option String
  mogScore : Option Int
  tier : Option String
  muscleBreakdown : Option MuscleBreakdown
  notVisible : Option (List String)
  weakPoints : Option (List String)
  strongPoints : Option (List String)
  symmetry : Option Int
deriving DecidableEq, Repr

/-- The normalized analysis object built at lines 2791-2813. -/
structure NormalizedAnalysis where
  isValidPhysique : Bool
  mogScore : Int
  tier : String
  muscleBreakdown : MuscleBreakdown
  notVisible : List String
  weakPoints : List String
  strongPoints : List String
  symmetry : Int
  aiPowered : Bool
deriving DecidableEq, Repr

/-- `analysis.muscleBreakdown?.chest ?? null`: optional chaining through a
possibly-absent object, preserving `null` for unobserved groups. -/
def rawMuscle (mb : Option MuscleBreakdown) (f : MuscleBreakdown → Option Int) : Option Int :=
  match mb with
  | none => none
  | some m => f m

/-- The normalization step of `analyzePhysiqueWithAI` applied to a parsed
provider payload: an explicit `isValidPhysique: false` is surfaced as a
rejection with the provider's reason; otherwise the normalized analysis is
built.  Only `mogScore` is clamped; the muscle-breakdown entries pass
through unchanged and `symmetry` only gets the falsy-default 70. -/
def normalizeAnalysis (analysis : RawAnalysis) : Except String NormalizedAnalysis :=
  if analysis.isValidPhysique = some false then
    Except.error (analysis.errorMessage.getD
      "Please upload a clear photo of your physique for accurate analysis.")
  else
    Except.ok {
      isValidPhysique := true
      mogScore := clamp100 (jsOr analysis.mogScore 50)
      tier := getTierFromScore (jsOr analysis.mogScore 50)
      muscleBreakdown := {
        chest := rawMuscle analysis.muscleBreakdown MuscleBreakdown.chest
        shoulders := rawMuscle analysis.muscleBreakdown MuscleBreakdown.shoulders
        back := rawMuscle analysis.muscleBreakdown MuscleBreakdown.back
        arms := rawMuscle analysis.muscleBreakdown MuscleBreakdown.arms
        legs := rawMuscle analysis.muscleBreakdown MuscleBreakdown.legs
        core := rawMuscle analysis.muscleBreakdown MuscleBreakdown.core
        leanness := rawMuscle analysis.muscleBreakdown MuscleBreakdown.leanness }
      notVisible := analysis.notVisible.getD []
      weakPoints := analysis.weakPoints.getD []
      strongPoints := analysis.strongPoints.getD []
      symmetry := jsOr analysis.symmetry 70
      aiPowered := true }

/-- An optional number is absent or lies in `[0,100]`. -/
abbrev optInRange (o : Option Int) : Prop := 0 ≤ o.getD 0 ∧ o.getD 0 ≤ 100

/-- Every entry of a muscle breakdown is absent or lies in `[0,100]`. -/
abbrev muscleInRange (mb : MuscleBreakdown) : Prop :=
  optInRange mb.chest ∧ optInRange mb.shoulders ∧ optInRange mb.back ∧
  optInRange mb.arms ∧ optInRange mb.legs ∧ optInRange mb.core ∧
  optInRange mb.leanness

/-- C2 as stated is false: the normalizer clamps only `mogScore`.  A muscle
value of 150 (and a symmetry of 150) survives normalization unchanged in an
accepted analysis. -/
theorem C2_counterexample :
    normalizeAnalysis
      { isValidPhysique := some true, errorMessage := none, mogScore := some 80,
        tier := none,
        muscleBreakdown := some
          { chest := some 150, shoulders := none, back := none, arms := none,
            legs := none, core := none, leanness := none },
        notVisible := none, weakPoints := none, strongPoints := none,
        symmetry := some 150 } =
      Except.ok
        { isValidPhysique := true, mogScore := 80, tier := "Chad",
          muscleBreakdown :=
            { chest := some 150, shoulders := none, back := none, arms := none,
              legs := none, core := none, leanness := none },
          notVisible := [], weakPoints := [], strongPoints := [],
          symmetry := 150, aiPowered := true }
    ∧ ¬ ((150 : Int) ≤ 100) := by
  constructor
  · rfl
  · decide

/-- C2 amended: for every accepted analysis the normalized `mogScore` lies in
`[0,100]` unconditionally; the muscle-breakdown entries and `symmetry` are
passed through (symmetry with falsy-default 70), so they lie in `[0,100]`
exactly when the provider's values did. -/
theorem C2_amended_numeric_bounds (a : RawAnalysis) (out : NormalizedAnalysis)
    (hok : normalizeAnalysis a = Except.ok out)
    (hmb : ∀ m, a.muscleBreakdown = some m → muscleInRange m)
    (hsym : optInRange a.symmetry) :
    (0 ≤ out.mogScore ∧ out.mogScore ≤ 100)
    ∧ muscleInRange out.muscleBreakdown
    ∧ (0 ≤ out.symmetry ∧ out.symmetry ≤ 100) := by
  unfold normalizeAnalysis at hok
  split at hok
  · exact absurd hok (by simp)
  · injection hok with hout
    subst hout
    refine ⟨⟨?_, ?_⟩, ?_, ?_⟩
    · show 0 ≤ clamp100 (jsOr a.mogScore 50)
      unfold clamp100
      omega
    · show clamp100 (jsOr a.mogScore 50) ≤ 100
      unfold clamp100
      omega
    · cases hcase : a.muscleBreakdown with
      | none => simp [rawMuscle, hcase, optInRange]
      | some m =>
        have := hmb m hcase
        simpa [rawMuscle, hcase, muscleInRange] using this
    · cases hcase : a.symmetry with
      | none => simp [jsOr, hcase]
      | some v =>
        rw [hcase] at hsym
        simp only [jsOr, hcase]
        rcases hsym with ⟨h1, h2⟩
        simp only [Option.getD] at h1 h2
        split_ifs <;> omega

/-- Witness for the amended C2 at an in-range provider payload. -/
theorem C2_amended_numeric_bounds_witness :
    (0 ≤ (42 : Int) ∧ (42 : Int) ≤ 100)
    ∧ muscleInRange
        { chest := some 70, shoulders := none, back := some 55, arms := none,
          legs := some 61, core := none, leanness := some 44 }
    ∧ (0 ≤ (88 : Int) ∧ (88 : Int) ≤ 100) :=
  C2_amended_numeric_bounds
    { isValidPhysique := some true, errorMessage := none, mogScore := some 42,
      tier := none,
      muscleBreakdown := some
        { chest := some 70, shoulders := none, back := some 55, arms := none,
          legs := some 61, core := none, leanness := some 44 },
      notVisible := none, weakPoints := none, strongPoints := none,
      symmetry := some 88 }
    { isValidPhysique := true, mogScore := 42, tier := "Low-Tier Normie",
      muscleBreakdown :=
        { chest := some 70, shoulders := none, back := some 55, arms := none,
          legs := some 61, core := none, leanness := some 44 },
      notVisible := [], weakPoints := [], strongPoints := [],
      symmetry := 88, aiPowered := true }
    (by rfl)
    (by intro m hm; injection hm with hm; subst hm; exact ⟨⟨by decide, by decide⟩,
      ⟨by decide, by decide⟩, ⟨by decide, by decide⟩, ⟨by decide, by decide⟩,
      ⟨by decide, by decide⟩, ⟨by decide, by decide⟩, ⟨by decide, by decide⟩⟩)
    ⟨by decide, by decide⟩

/-- C4: in every accepted analysis the output tier is the tier resolver
applied to the output (clamped) score, and the provider's own tier
suggestion has no effect on the result. -/
theorem C4_tier_recomputed_from_score :
    (∀ a out, normalizeAnalysis a = Except.ok out →
      out.tier = getTierFromScore out.mogScore)
    ∧ (∀ a sug, normalizeAnalysis { a with tier := sug } = normalizeAnalysis a) := by
  constructor
  · intro a out hok
    unfold normalizeAnalysis at hok
    split at hok
    · exact absurd hok (by simp)
    · injection hok with hout
      subst hout
      exact (getTierFromScore_clamp (jsOr a.mogScore 50)).symm
  · intro a sug
    cases a
    rfl

/-- Witness for C4 on a concrete accepted payload with an out-of-range raw
score of 130: the normalized score is 100 and the tier is recomputed from it. -/
theorem C4_tier_recomputed_from_score_witness :
    ({ isValidPhysique := true, mogScore := 100, tier := "Final Boss Mogger",
       muscleBreakdown :=
         { chest := none, shoulders := none, back := none, arms := none,
           legs := none, core := none, leanness := none },
       notVisible := [], weakPoints := [], strongPoints := [],
       symmetry := 70, aiPowered := true } : NormalizedAnalysis).tier =
      getTierFromScore 100 :=
  C4_tier_recomputed_from_score.1
    { isValidPhysique := none, errorMessage := none, mogScore := some 130,
      tier := some "Gym Bro", muscleBreakdown := none, notVisible := none,
      weakPoints := none, strongPoints := none, symmetry := none }
    { isValidPhysique := true, mogScore := 100, tier := "Final Boss Mogger",
      muscleBreakdown :=
        { chest := none, shoulders := none, back := none, arms := none,
          legs := none, core := none, leanness := none },
      notVisible := [], weakPoints := [], strongPoints := [],
      symmetry := 70, aiPowered := true }
    (by rfl)

/-- C10: when the provider reports `mogScore` 0 or omits it, the falsy-default
kicks in before clamping and tier resolution: the accepted analysis gets
score 50 and tier Normie, not score 0 and tier Gym Bro. -/
theorem C10_falsy_zero_score_defaults_to_50 (a : RawAnalysis)
    (hvalid : a.isValidPhysique ≠ some false)
    (hscore : a.mogScore = some 0 ∨ a.mogScore = none) :
    (normalizeAnalysis a).map (fun out => (out.mogScore, out.tier)) =
      Except.ok (50, "Normie") := by
  unfold normalizeAnalysis
  rw [if_neg hvalid]
  rcases hscore with h | h <;> rw [h] <;> rfl

/-- Witness for C10: a payload with explicit `mogScore: 0`. -/
theorem C10_falsy_zero_score_defaults_to_50_witness :
    (normalizeAnalysis
      { isValidPhysique := some true, errorMessage := none, mogScore := some 0,
        tier := none, muscleBreakdown := none, notVisible := none,
        weakPoints := none, strongPoints := none, symmetry := none }).map
      (fun out => (out.mogScore, out.tier)) = Except.ok (50, "Normie") :=
  C10_falsy_zero_score_defaults_to_50
    { isValidPhysique := some true, errorMessage := none, mogScore := some 0,
      tier := none, muscleBreakdown := none, notVisible := none,
      weakPoints := none, strongPoints := none, symmetry := none }
    (by decide) (Or.inl rfl)

/-! ## Plan state machine: the complete-day handler
(src/server.js lines 4814-4999, `POST /api/training/:userId/complete-day`) -/

/-- JavaScript `x || d` for an optional natural number (0 is falsy). -/
def jsOrNat (x : Option Nat) (d : Nat) : Nat :=
  match x with
  | none => d
  | some v => if v = 0 then d else v

/-- JavaScript `x || d` for an optional string (the empty string is falsy). -/
def jsOrStr (x : Option String) (d : String) : String :=
  match x with
  | none => d
  | some s => if s = "" then d else s

/-- In-place array element update (`arr[i] = f(arr[i])`). -/
def updateAt {α : Type} : List α → Nat → (α → α) → List α
  | [], _, _ => []
  | x :: xs, 0, f => f x :: xs
  | x :: xs, Nat.succ n, f => x :: updateAt xs n f

/-- JavaScript `Array.prototype.findIndex` (with `none` for -1). -/
def findIndex {α : Type} (p : α → Bool) : List α → Option Nat
  | [] => none
  | x :: xs => if p x then some 0 else (findIndex p xs).map (· + 1)

/-- Day statuses used by the plan state machine. -/
inductive DayStatus
  | upcoming
  | today
  | done
deriving DecidableEq, Repr

/-- One step (set) of an exercise. -/
structure Step where
  stepNumber : Nat
  title : String
  description : String
  duration : Int
deriving DecidableEq, Repr

/-- One exercise of a training day, as stored. -/
structure Exercise where
  id : String
  name : String
  sets : String
  note : String
  badge : Option String
  badgeColor : Option String
  borderColor : String
  completed : Bool
  steps : List Step
deriving DecidableEq, Repr

/-- One day of a stored weekly plan.  The stored documents are schema-free
(`weeklyPlan: [Object]` in the Mongoose model), so every field the handlers
guard with `||`/truthiness checks is optional here. -/
structure PlanDay where
  day : Nat
  title : Option String
  description : Option String
  type : Option String
  typeColor : Option String
  secondaryType : Option String
  status : Option DayStatus
  duration : Option String
  caloriesBurn : Option Int
  targetMuscles : Option (List String)
  completed : Option Bool
  completedAt : Option String
  exercises : Option (List Exercise)
deriving DecidableEq, Repr

/-- One entry of `completedHistory`. -/
structure HistoryEntry where
  weekNumber : Nat
  dayNumber : Nat
  completedAt : String
  exercises : Option (List Exercise)
  targetMuscles : List String
deriving DecidableEq, Repr

/-- The `WorkoutPlan` document as the complete-day handler uses it. -/
structure WorkoutPlanDoc where
  userId : String
  weekId : String
  mission : Option String
  currentWeek : Option Nat
  weeklyPlan : List PlanDay
  completedHistory : List HistoryEntry
deriving DecidableEq, Repr

/-- The `user.weeklyTrainingPlan` mirror written on rollover. -/
structure UserWeeklyPlan where
  weekId : String
  weekNumber : Option Nat
  mission : String
  days : List PlanDay
  currentWeek : Nat
deriving DecidableEq, Repr

/-- The `User` document fields the complete-day handler touches.  The
floating-point `mogScore` is modelled as an exact rational. -/
structure UserDoc where
  mogScore : Rat
  totalWorkouts : Nat
  lastWorkoutDate : Option String
  weeklyTrainingPlan : Option UserWeeklyPlan
deriving DecidableEq, Repr

/-- The status of the day at an index, `none` when out of range or unset. -/
def statusAt (l : List PlanDay) (i : Nat) : Option DayStatus :=
  match l.get? i with
  | none => none
  | some d => d.status

/-- Lines 4877-4898: mark day `dayNumber` (at index `i`) as done, auto-advance
the day numbered `dayNumber + 1` to `today` if it is `upcoming`, and mark the
completed day's exercises as completed.  No status precondition is checked. -/
def applyDayCompletion (wp : List PlanDay) (i : Nat) (dayNumber : Nat)
    (nowTok : String) : List PlanDay :=
  let wp1 := updateAt wp i (fun d =>
    { d with
      status := some DayStatus.done
      completed := some true
      completedAt := some nowTok })
  let wp2 :=
    match findIndex (fun d => d.day == dayNumber + 1) wp1 with
    | none => wp1
    | some j =>
        if statusAt wp1 j = some DayStatus.upcoming then
          updateAt wp1 j (fun d => { d with status := some DayStatus.today })
        else wp1
  updateAt wp2 i (fun d =>
    { d with exercises := d.exercises.map (List.map
        (fun e => { e with completed := true })) })

/-- `mogPointsEarned = 0.2 + actualExerciseCount * 0.15` (line 4923), as an
exact rational. -/
def mogPoints (cnt : Nat) : Rat := 1 / 5 + cnt * (3 / 20)

/-- Everything the complete-day handler leaves behind: HTTP success or not,
the plan and user documents as saved, the regeneration-guard map (which this
handler never reads or writes: the JavaScript function body contains no
reference to `regeneratingPlans`), the number of `generateNextWeekPlan`
invocations, and the response fields. -/
structure CompleteDayOutcome where
  httpOk : Bool
  plan : WorkoutPlanDoc
  user : Option UserDoc
  guard : List (String × Nat)
  genCalls : Nat
  mogPointsEarned : Option Rat
  allDaysCompleted : Bool
  newWeekGenerated : Bool
  currentWeek : Nat
deriving DecidableEq, Repr

/-- The complete-day handler (lines 4871-4993), from the point where the
stored plan was found.  `gen` is the outcome of the `generateNextWeekPlan`
provider call (`Except.error` models a throw); `guard` is the shared
`regeneratingPlans` map, threaded through untouched because the handler
ignores it; `nowTok` stands for `Date.now()` / `new Date()`. -/
def completeDay (guard : List (String × Nat)) (plan : WorkoutPlanDoc)
    (user : Option UserDoc) (dayNumber : Nat)
    (reqTargetMuscles : Option (List String)) (reqExerciseCount : Option Nat)
    (gen : Except Unit (List PlanDay)) (nowTok : String) : CompleteDayOutcome :=
  match findIndex (fun d => d.day == dayNumber) plan.weeklyPlan with
  | none =>
      { httpOk := false, plan := plan, user := user, guard := guard,
        genCalls := 0, mogPointsEarned := none, allDaysCompleted := false,
        newWeekGenerated := false, currentWeek := jsOrNat plan.currentWeek 1 }
  | some dayIndex =>
      let wp := applyDayCompletion plan.weeklyPlan dayIndex dayNumber nowTok
      let dayDone := wp.get? dayIndex
      let histEntry : HistoryEntry := {
        weekNumber := jsOrNat plan.currentWeek 1
        dayNumber := dayNumber
        completedAt := nowTok
        exercises := (match dayDone with
          | some d => d.exercises
          | none => none)
        targetMuscles := (match dayDone with
          | some d => d.targetMuscles.getD (reqTargetMuscles.getD [])
          | none => reqTargetMuscles.getD []) }
      let plan1 := { plan with
        weeklyPlan := wp
        completedHistory := plan.completedHistory ++ [histEntry] }
      let actualCount := jsOrNat reqExerciseCount
        (match dayDone with
         | some d => match d.exercises with
           | some exs => jsOrNat (some exs.length) 3
           | none => 3
         | none => 3)
      let pts := mogPoints actualCount
      let user1 := user.map (fun u =>
        { u with
          mogScore := u.mogScore + pts
          totalWorkouts := u.totalWorkouts + 1
          lastWorkoutDate := some nowTok })
      let allDone := wp.all (fun d => d.status == some DayStatus.done)
      if allDone then
        match gen with
        | Except.error _ =>
            { httpOk := true, plan := plan1, user := user1, guard := guard,
              genCalls := 1, mogPointsEarned := some pts,
              allDaysCompleted := true, newWeekGenerated := false,
              currentWeek := jsOrNat plan.currentWeek 1 }
        | Except.ok nextWeek =>
            if 0 < nextWeek.length then
              let newWeekNumber := jsOrNat plan.currentWeek 1 + 1
              let newWeekId :=
                "week-" ++ toString newWeekNumber ++ "-" ++ nowTok
              let plan2 := { plan1 with
                currentWeek := some newWeekNumber
                weeklyPlan := nextWeek
                weekId := newWeekId }
              let user2 := user1.map (fun u =>
                { u with weeklyTrainingPlan := some {
                    weekId := newWeekId
                    weekNumber := some newWeekNumber
                    mission := jsOrStr plan.mission
                      ("Week " ++ toString newWeekNumber ++
                       " - Continue your transformation")
                    days := nextWeek
                    currentWeek := newWeekNumber } })
              { httpOk := true, plan := plan2, user := user2, guard := guard,
                genCalls := 1, mogPointsEarned := some pts,
                allDaysCompleted := true, newWeekGenerated := true,
                currentWeek := newWeekNumber }
            else
              { httpOk := true, plan := plan1, user := user1, guard := guard,
                genCalls := 1, mogPointsEarned := some pts,
                allDaysCompleted := true, newWeekGenerated := false,
                currentWeek := jsOrNat plan.currentWeek 1 }
      else
        { httpOk := true, plan := plan1, user := user1, guard := guard,
          genCalls := 0, mogPointsEarned := some pts,
          allDaysCompleted := false, newWeekGenerated := false,
          currentWeek := jsOrNat plan.currentWeek 1 }

theorem updateAt_get_self {α : Type} (l : List α) (i : Nat) (f : α → α) :
    (updateAt l i f).get? i = (l.get? i).map f := by
  induction l generalizing i with
  | nil => simp [updateAt]
  | cons x xs ih =>
    cases i with
    | zero => rfl
    | succ n => simpa [updateAt] using ih n

theorem updateAt_get_ne {α : Type} (l : List α) (i j : Nat) (f : α → α)
    (h : j ≠ i) : (updateAt l i f).get? j = l.get? j := by
  induction l generalizing i j with
  | nil => simp [updateAt]
  | cons x xs ih =>
    cases i with
    | zero =>
      cases j with
      | zero => exact absurd rfl h
      | succ m => rfl
    | succ n =>
      cases j with
      | zero => rfl
      | succ m => simpa [updateAt] using ih n m (by omega)

theorem statusAt_updateAt_self (l : List PlanDay) (i : Nat) (f : PlanDay → PlanDay)
    (x : PlanDay) (hx : l.get? i = some x) :
    statusAt (updateAt l i f) i = (f x).status := by
  unfold statusAt
  rw [updateAt_get_self, hx]
  rfl

theorem statusAt_updateAt_ne (l : List PlanDay) (i j : Nat) (f : PlanDay → PlanDay)
    (h : j ≠ i) : statusAt (updateAt l i f) j = statusAt l j := by
  unfold statusAt
  rw [updateAt_get_ne l i j f h]

/-- After `applyDayCompletion`, the completed day's status is `done`:
the first update writes `done`, the auto-advance can only touch the
completed index if its status were `upcoming` (it is `done`), and the
exercise-completion update does not change the status. -/
theorem applyDayCompletion_status (wp : List PlanDay) (i n : Nat) (tok : String)
    (x : PlanDay) (hx : wp.get? i = some x) :
    statusAt (applyDayCompletion wp i n tok) i = some DayStatus.done := by
  unfold applyDayCompletion
  have h1 : (updateAt wp i (fun d =>
      { d with
        status := some DayStatus.done
        completed := some true
        completedAt := some tok })).get? i = some
      { x with
        status := some DayStatus.done
        completed := some true
        completedAt := some tok } := by
    rw [updateAt_get_self, hx]
    rfl
  have hst1 : statusAt (updateAt wp i (fun d =>
      { d with
        status := some DayStatus.done
        completed := some true
        completedAt := some tok })) i = some DayStatus.done := by
    unfold statusAt
    rw [h1]
  cases hfi : findIndex (fun d => d.day == n + 1) (updateAt wp i (fun d =>
      { d with
        status := some DayStatus.done
        completed := some true
        completedAt := some tok })) with
  | none =>
    simp only [hfi]
    rw [statusAt_updateAt_self _ _ _ _ h1]
  | some j =>
    simp only [hfi]
    by_cases hij : j = i
    · subst hij
      rw [if_neg (by rw [hst1]; simp)]
      rw [statusAt_updateAt_self _ _ _ _ h1]
    · by_cases hcond : statusAt (updateAt wp i (fun d =>
          { d with
            status := some DayStatus.done
            completed := some true
            completedAt := some tok })) j = some DayStatus.upcoming
      · rw [if_pos hcond]
        have h2 : (updateAt (updateAt wp i (fun d =>
            { d with
              status := some DayStatus.done
              completed := some true
              completedAt := some tok })) j
            (fun d => { d with status := some DayStatus.today })).get? i = some
            { x with
              status := some DayStatus.done
              completed := some true
              completedAt := some tok } := by
          rw [updateAt_get_ne _ _ _ _ (fun hh => hij hh.symm), h1]
        rw [statusAt_updateAt_self _ _ _ _ h2]
      · rw [if_neg hcond]
        rw [statusAt_updateAt_self _ _ _ _ h1]

theorem mogPoints_pos (cnt : Nat) : 0 < mogPoints cnt := by
  unfold mogPoints
  have h : (0 : Rat) ≤ (cnt : Rat) * (3 / 20) := by positivity
  nlinarith

/-- C1 as stated is false: the complete-day handler checks only that the day
number exists in the plan, never that its status is `today`.  Here day 1 is
`upcoming`, yet the request succeeds: it is marked `done`, a history entry
is appended and the user's mogScore is incremented by 0.35 points. -/
def c1Exercise : Exercise :=
  { id := "e1", name := "Bench Press", sets := "4 x 10", note := "",
    badge := none, badgeColor := none, borderColor := "#3A2A4A",
    completed := false, steps := [] }

/-- A minimal stored day for concrete runs of the handler. -/
def mkDay (n : Nat) (st : Option DayStatus) (exs : Option (List Exercise)) : PlanDay :=
  { day := n, title := none, description := none, type := none, typeColor := none,
    secondaryType := none, status := st, duration := none, caloriesBurn := none,
    targetMuscles := none, completed := none, completedAt := none, exercises := exs }

def c1Plan : WorkoutPlanDoc :=
  { userId := "u1", weekId := "w1", mission := none, currentWeek := some 1,
    weeklyPlan := [mkDay 1 (some DayStatus.upcoming) (some [c1Exercise]),
                   mkDay 2 (some DayStatus.upcoming) none],
    completedHistory := [] }

def c1User : UserDoc :=
  { mogScore := 0, totalWorkouts := 0, lastWorkoutDate := none,
    weeklyTrainingPlan := none }

theorem C1_counterexample :
    (mkDay 1 (some DayStatus.upcoming) (some [c1Exercise])).status ≠
        some DayStatus.today
    ∧ (completeDay [] c1Plan (some c1User) 1 none none (Except.error ())
        "T0").httpOk = true
    ∧ statusAt (completeDay [] c1Plan (some c1User) 1 none none (Except.error ())
        "T0").plan.weeklyPlan 0 = some DayStatus.done
    ∧ (completeDay [] c1Plan (some c1User) 1 none none (Except.error ())
        "T0").plan.completedHistory.length = 1
    ∧ (completeDay [] c1Plan (some c1User) 1 none none (Except.error ())
        "T0").user.map UserDoc.mogScore = some (c1User.mogScore + mogPoints 1)
    ∧ c1User.mogScore + mogPoints 1 ≠ c1User.mogScore := by
  refine ⟨by decide, rfl, rfl, rfl, rfl,
    (lt_add_of_pos_right c1User.mogScore (mogPoints_pos 1)).ne'⟩

/-- C1 amended: a complete-day request fails (HTTP 404) and leaves the plan
and user unchanged exactly when the requested day number is not present in
the plan.  When the day is present — whatever its status — the request
succeeds, appends one entry to `completedHistory`, increments the user's
mogScore by a positive amount, and (unless the week rolled over to freshly
generated days) the day's stored status afterwards is `done`. -/
theorem C1_amended_no_status_precondition (guard : List (String × Nat))
    (plan : WorkoutPlanDoc) (user : Option UserDoc) (n : Nat)
    (rtm : Option (List String)) (rec : Option Nat)
    (gen : Except Unit (List PlanDay)) (tok : String) :
    (findIndex (fun d => d.day == n) plan.weeklyPlan = none →
      completeDay guard plan user n rtm rec gen tok =
        { httpOk := false, plan := plan, user := user, guard := guard,
          genCalls := 0, mogPointsEarned := none, allDaysCompleted := false,
          newWeekGenerated := false, currentWeek := jsOrNat plan.currentWeek 1 })
    ∧ (∀ i x, findIndex (fun d => d.day == n) plan.weeklyPlan = some i →
        plan.weeklyPlan.get? i = some x →
        (completeDay guard plan user n rtm rec gen tok).httpOk = true
        ∧ (completeDay guard plan user n rtm rec gen tok).plan.completedHistory.length
            = plan.completedHistory.length + 1
        ∧ ((completeDay guard plan user n rtm rec gen tok).newWeekGenerated = false →
            statusAt (completeDay guard plan user n rtm rec gen tok).plan.weeklyPlan i
              = some DayStatus.done)
        ∧ (∀ u, user = some u →
            ∃ q : Rat, 0 < q ∧
              (completeDay guard plan user n rtm rec gen tok).user.map UserDoc.mogScore
                = some (u.mogScore + q))) := by
  constructor
  · intro hnone
    unfold completeDay
    rw [hnone]
  · intro i x hfi hx
    unfold completeDay
    rw [hfi]
    simp only []
    split
    · split
      · refine ⟨rfl, by simp, ?_, ?_⟩
        · intro _
          exact applyDayCompletion_status plan.weeklyPlan i n tok x hx
        · intro u hu
          subst hu
          exact ⟨_, mogPoints_pos _, rfl⟩
      · split
        · refine ⟨rfl, by simp, ?_, ?_⟩
          · intro habs
            exact absurd habs (by simp)
          · intro u hu
            subst hu
            exact ⟨_, mogPoints_pos _, rfl⟩
        · refine ⟨rfl, by simp, ?_, ?_⟩
          · intro _
            exact applyDayCompletion_status plan.weeklyPlan i n tok x hx
          · intro u hu
            subst hu
            exact ⟨_, mogPoints_pos _, rfl⟩
    · refine ⟨rfl, by simp, ?_, ?_⟩
      · intro _
        exact applyDayCompletion_status plan.weeklyPlan i n tok x hx
      · intro u hu
        subst hu
        exact ⟨_, mogPoints_pos _, rfl⟩

/-- Witness for the amended C1, at the concrete plan whose day 1 is
`upcoming`. -/
theorem C1_amended_no_status_precondition_witness :
    (completeDay [] c1Plan (some c1User) 1 none none (Except.error ()) "T0").httpOk = true
    ∧ (completeDay [] c1Plan (some c1User) 1 none none (Except.error ())
        "T0").plan.completedHistory.length = 1
    ∧ ((completeDay [] c1Plan (some c1User) 1 none none (Except.error ())
        "T0").newWeekGenerated = false →
        statusAt (completeDay [] c1Plan (some c1User) 1 none none (Except.error ())
          "T0").plan.weeklyPlan 0 = some DayStatus.done)
    ∧ (∀ u, some c1User = some u →
        ∃ q : Rat, 0 < q ∧
          (completeDay [] c1Plan (some c1User) 1 none none (Except.error ())
            "T0").user.map UserDoc.mogScore = some (u.mogScore + q)) := by
  have h := (C1_amended_no_status_precondition [] c1Plan (some c1User) 1 none none
    (Except.error ()) "T0").2 0
    (mkDay 1 (some DayStatus.upcoming) (some [c1Exercise])) rfl rfl
  simpa [c1Plan] using h

/-- C7: the week rollover is atomic with respect to generation failure.
When the completed day makes every day `done` and `generateNextWeekPlan`
throws or returns no days, the handler keeps the marked plan: the days are
the all-done marked days, `currentWeek` is untouched, no new week is
recorded, and exactly one generation attempt was made. -/
theorem C7_rollover_left_intact_on_generation_failure
    (guard : List (String × Nat)) (plan : WorkoutPlanDoc) (user : Option UserDoc)
    (n : Nat) (rtm : Option (List String)) (rec : Option Nat)
    (gen : Except Unit (List PlanDay)) (tok : String) (i : Nat)
    (hfi : findIndex (fun d => d.day == n) plan.weeklyPlan = some i)
    (hgen : gen = Except.error () ∨ gen = Except.ok [])
    (hall : ((applyDayCompletion plan.weeklyPlan i n tok).all
        (fun d => d.status == some DayStatus.done)) = true) :
    (completeDay guard plan user n rtm rec gen tok).plan.currentWeek = plan.currentWeek
    ∧ (completeDay guard plan user n rtm rec gen tok).plan.weeklyPlan
        = applyDayCompletion plan.weeklyPlan i n tok
    ∧ (∀ d, d ∈ (completeDay guard plan user n rtm rec gen tok).plan.weeklyPlan →
        d.status = some DayStatus.done)
    ∧ (completeDay guard plan user n rtm rec gen tok).newWeekGenerated = false
    ∧ (completeDay guard plan user n rtm rec gen tok).genCalls = 1 := by
  have hdays : ∀ d, d ∈ applyDayCompletion plan.weeklyPlan i n tok →
      d.status = some DayStatus.done := by
    intro d hd
    have := List.all_eq_true.mp hall d hd
    simpa using this
  unfold completeDay
  rw [hfi]
  simp only []
  rcases hgen with hg | hg <;> subst hg
  · rw [if_pos hall]
    exact ⟨rfl, rfl, hdays, rfl, rfl⟩
  · rw [if_pos hall]
    exact ⟨rfl, rfl, hdays, rfl, rfl⟩

def c7Plan : WorkoutPlanDoc :=
  { userId := "u7", weekId := "w7", mission := none, currentWeek := some 3,
    weeklyPlan := [mkDay 1 (some DayStatus.today) (some [c1Exercise])],
    completedHistory := [] }

/-- Witness for C7: a one-day plan whose single day is completed while
generation throws; the week stays at 3 with the day left `done`. -/
theorem C7_rollover_left_intact_on_generation_failure_witness :
    (completeDay [] c7Plan none 1 none none (Except.error ()) "T7").plan.currentWeek
        = c7Plan.currentWeek
    ∧ (completeDay [] c7Plan none 1 none none (Except.error ()) "T7").plan.weeklyPlan
        = applyDayCompletion c7Plan.weeklyPlan 0 1 "T7"
    ∧ (∀ d, d ∈ (completeDay [] c7Plan none 1 none none (Except.error ())
          "T7").plan.weeklyPlan → d.status = some DayStatus.done)
    ∧ (completeDay [] c7Plan none 1 none none (Except.error ()) "T7").newWeekGenerated
        = false
    ∧ (completeDay [] c7Plan none 1 none none (Except.error ()) "T7").genCalls = 1 :=
  C7_rollover_left_intact_on_generation_failure [] c7Plan none 1 none none
    (Except.error ()) "T7" 0 rfl (Or.inl rfl) (by decide)

def c3Plan : WorkoutPlanDoc :=
  { userId := "u1", weekId := "w3", mission := none, currentWeek := some 1,
    weeklyPlan := [mkDay 1 (some DayStatus.today) (some [c1Exercise])],
    completedHistory := [] }

def c3User : UserDoc :=
  { mogScore := 10, totalWorkouts := 6, lastWorkoutDate := none,
    weeklyTrainingPlan := none }

/-- C3 as stated is false: the complete-day rollover never consults the
per-user Regeneration Guard (`regeneratingPlans`).  With a live, fresh
marker for the very same user already present, completing the last day
still invokes progressive generation, and the guard map is left exactly as
it was (never acquired, never released).  Moreover, two completion
requests computed from the same loaded plan snapshot — the interleaving in
which both concurrent handlers read the plan before either saves — each
invoke generation, so one week-completion event can produce two rollover
attempts. -/
theorem C3_counterexample :
    (completeDay [("u1", 0)] c3Plan (some c3User) 1 none none
        (Except.ok [mkDay 1 (some DayStatus.today) none]) "T1").genCalls = 1
    ∧ (completeDay [("u1", 0)] c3Plan (some c3User) 1 none none
        (Except.ok [mkDay 1 (some DayStatus.today) none]) "T1").guard = [("u1", 0)]
    ∧ (completeDay [("u1", 0)] c3Plan (some c3User) 1 none none
          (Except.ok [mkDay 1 (some DayStatus.today) none]) "T1").genCalls
        + (completeDay [("u1", 0)] c3Plan (some c3User) 1 none none
          (Except.ok [mkDay 1 (some DayStatus.today) none]) "T2").genCalls = 2 := by
  refine ⟨rfl, rfl, rfl⟩

/-- C3 amended: the complete-day handler runs the rollover outside the
Regeneration Guard.  For every guard state the guard map is returned
untouched, and whenever the marked plan has all days done, generation is
invoked exactly once by that request — regardless of any live marker.
Concurrent duplicate completions are therefore not prevented by the guard;
only the per-request count is fixed at one. -/
theorem C3_amended_rollover_not_guarded (guard : List (String × Nat))
    (plan : WorkoutPlanDoc) (user : Option UserDoc) (n : Nat)
    (rtm : Option (List String)) (rec : Option Nat)
    (gen : Except Unit (List PlanDay)) (tok : String) :
    (completeDay guard plan user n rtm rec gen tok).guard = guard
    ∧ (∀ i, findIndex (fun d => d.day == n) plan.weeklyPlan = some i →
        ((applyDayCompletion plan.weeklyPlan i n tok).all
            (fun d => d.status == some DayStatus.done)) = true →
        (completeDay guard plan user n rtm rec gen tok).genCalls = 1) := by
  constructor
  · unfold completeDay
    cases hfi : findIndex (fun d => d.day == n) plan.weeklyPlan with
    | none => rfl
    | some i =>
      simp only []
      split
      · split
        · rfl
        · split <;> rfl
      · rfl
  · intro i hfi hall
    unfold completeDay
    rw [hfi]
    simp only []
    rw [if_pos hall]
    cases gen with
    | error e => rfl
    | ok nextWeek =>
      by_cases hlen : 0 < nextWeek.length
      · simp only [if_pos hlen]
      · simp only [if_neg hlen]

/-- Witness for the amended C3 at the concrete one-day plan and a guard map
holding a live marker for the same user. -/
theorem C3_amended_rollover_not_guarded_witness :
    (completeDay [("u1", 0)] c3Plan (some c3User) 1 none none
        (Except.error ()) "T1").guard = [("u1", 0)]
    ∧ (completeDay [("u1", 0)] c3Plan (some c3User) 1 none none
        (Except.error ()) "T1").genCalls = 1 :=
  ⟨(C3_amended_rollover_not_guarded [("u1", 0)] c3Plan (some c3User) 1 none none
      (Except.error ()) "T1").1,
   (C3_amended_rollover_not_guarded [("u1", 0)] c3Plan (some c3User) 1 none none
      (Except.error ()) "T1").2 0 rfl (by decide)⟩

/-! ## Plan Generator formatting and step repair
(src/server.js lines 4485-4575 `generateAITrainingPlan`,
4710-4755 `generateNextWeekPlan` formatting, 4040-4081 weekly serving) -/

/-- A raw step from the plan-generation provider. -/
structure RawStep where
  title : Option String
  description : Option String
  duration : Option Int
deriving DecidableEq, Repr

/-- A raw exercise from the plan-generation provider. -/
structure RawExercise where
  id : Option String
  name : Option String
  sets : Option String
  note : Option String
  badge : Option String
  badgeColor : Option String
  borderColor : Option String
  steps : Option (List RawStep)
deriving DecidableEq, Repr

/-- A raw day from the plan-generation provider. -/
structure RawDay where
  title : Option String
  description : Option String
  type : Option String
  typeColor : Option String
  duration : Option String
  caloriesBurn : Option Int
  targetMuscles : Option (List String)
  exercises : Option (List RawExercise)
deriving DecidableEq, Repr

/-- JavaScript `x || null` for an optional string (empty string becomes null). -/
def jsOrNull (x : Option String) : Option String :=
  match x with
  | none => none
  | some s => if s = "" then none else some s

/-- JavaScript `s || d` on a present string. -/
def jsStrOr (s : String) (d : String) : String :=
  if s = "" then d else s

/-- The `defaultSteps` template (lines 4486-4491 and 4711-4716 and 4041-4046). -/
def defaultSteps : List Step := [
  { stepNumber := 1, title := "Set 1 - Warm Up",
    description := "Start light and focus on form", duration := 60 },
  { stepNumber := 2, title := "Set 2 - Build Up",
    description := "Increase weight, maintain control", duration := 60 },
  { stepNumber := 3, title := "Set 3 - Working Set",
    description := "Push yourself, feel the burn", duration := 60 },
  { stepNumber := 4, title := "Set 4 - Final Set",
    description := "Give it everything you have!", duration := 60 }]

/-- Step normalization inside the `ex.steps.map` call (4513-4518 / 4739-4744). -/
def formatStep (stepIndex : Nat) (s : RawStep) : Step :=
  { stepNumber := stepIndex + 1
    title := jsOrStr s.title ("Set " ++ toString (stepIndex + 1))
    description := jsOrStr s.description "Complete this set with good form"
    duration := max 60 (jsOr s.duration 60) }

/-- Exercise normalization of the generator's main path (4504-4519, identical
at 4730-4745): steps are kept (re-numbered) only when at least 3 were
produced, otherwise the 4 default template steps are used. -/
def formatExercise (dayIndex exIndex : Nat) (ex : RawExercise) : Exercise :=
  { id := jsOrStr ex.id
      ("ex-" ++ toString (dayIndex + 1) ++ "-" ++ toString (exIndex + 1))
    name := jsOrStr ex.name ("Exercise " ++ toString (exIndex + 1))
    sets := jsOrStr ex.sets "4 x 10"
    note := jsOrStr ex.note "Focus on proper form"
    badge := jsOrNull ex.badge
    badgeColor := jsOrNull ex.badgeColor
    borderColor := jsOrStr ex.borderColor "#3A2A4A"
    completed := false
    steps := (match ex.steps with
      | some ss =>
          if 3 ≤ ss.length then ss.enum.map (fun p => formatStep p.1 p.2)
          else defaultSteps.take 4
      | none => defaultSteps.take 4) }

/-- The cold-start generator's day normalization (`plan.days = (plan.days
|| []).map(...)`, lines 4494-4520). -/
def formatGeneratedDays (days : Option (List RawDay)) : List PlanDay :=
  (days.getD []).enum.map (fun p =>
    { day := p.1 + 1
      title := some (jsOrStr p.2.title ("Training Day " ++ toString (p.1 + 1)))
      description := some (jsOrStr p.2.description "")
      type := some (jsOrStr p.2.type "Strength")
      typeColor := some (jsOrStr p.2.typeColor "#4A7CFF")
      secondaryType := none
      status := some (if p.1 = 0 then DayStatus.today else DayStatus.upcoming)
      duration := some (jsOrStr p.2.duration "45 min")
      caloriesBurn := some (jsOr p.2.caloriesBurn 300)
      targetMuscles := some (p.2.targetMuscles.getD [])
      completed := none
      completedAt := none
      exercises := some ((p.2.exercises.getD []).enum.map
        (fun q => formatExercise p.1 q.1 q.2)) })

/-- The progressive generator's day normalization (`formattedDays`, lines
4719-4746): identical exercise repair, plus `completed: false` on the day. -/
def formatNextWeekDays (days : Option (List RawDay)) : List PlanDay :=
  (days.getD []).enum.map (fun p =>
    { day := p.1 + 1
      title := some (jsOrStr p.2.title ("Training Day " ++ toString (p.1 + 1)))
      description := some (jsOrStr p.2.description "")
      type := some (jsOrStr p.2.type "Strength")
      typeColor := some (jsOrStr p.2.typeColor "#4A7CFF")
      secondaryType := none
      status := some (if p.1 = 0 then DayStatus.today else DayStatus.upcoming)
      duration := some (jsOrStr p.2.duration "45 min")
      caloriesBurn := some (jsOr p.2.caloriesBurn 300)
      targetMuscles := some (p.2.targetMuscles.getD [])
      completed := some false
      completedAt := none
      exercises := some ((p.2.exercises.getD []).enum.map
        (fun q => formatExercise p.1 q.1 q.2)) })

/-- A day of the cold-start generator's gpt-4o fallback output (lines
4561-4565): the raw day is spread verbatim with only `day` and `status`
overridden — no exercise or step repair of any kind. -/
structure FallbackDay where
  day : Nat
  status : DayStatus
  orig : RawDay
deriving DecidableEq, Repr

/-- The fallback path's day map (`fallbackPlan.days = (fallbackPlan.days ||
[]).map((day, index) => ({ ...day, day: index + 1, status: ... }))`). -/
def fallbackPlanDays (days : Option (List RawDay)) : List FallbackDay :=
  (days.getD []).enum.map (fun p =>
    { day := p.1 + 1
      status := if p.1 = 0 then DayStatus.today else DayStatus.upcoming
      orig := p.2 })

/-- `isPlanComplete` (lines 3948-3957): at least 3 days, every day has
exercises, and every exercise has at least **2** steps. -/
def isPlanComplete (days : List PlanDay) : Bool :=
  if days.length < 3 then false
  else days.all (fun day =>
    match day.exercises with
    | none => false
    | some exs =>
        if exs.length = 0 then false
        else exs.all (fun ex => decide (2 ≤ ex.steps.length)))

/-- The per-exercise serving conversion of `GET /api/training/:userId/weekly`
(lines 4065-4076): default steps are substituted only when fewer than **2**
steps are stored. -/
def serveExercise (ex : Exercise) : Exercise :=
  { id := ex.id
    name := ex.name
    sets := ex.sets
    note := jsStrOr ex.note "Focus on proper form"
    badge := jsOrNull ex.badge
    badgeColor := jsOrNull ex.badgeColor
    borderColor := jsStrOr ex.borderColor "#3A2A4A"
    completed := ex.completed
    steps := if 2 ≤ ex.steps.length then ex.steps else defaultSteps }

/-- The per-day serving conversion (lines 4054-4078). -/
def serveDay (day : PlanDay) : PlanDay :=
  { day := day.day
    title := day.title
    description := some (jsOrStr day.description "")
    type := some (jsOrStr day.type "Strength")
    typeColor := some (jsOrStr day.typeColor "#4A7CFF")
    secondaryType := jsOrNull day.secondaryType
    status := some (day.status.getD DayStatus.upcoming)
    duration := some (jsOrStr day.duration "45 min")
    caloriesBurn := some (jsOr day.caloriesBurn 300)
    targetMuscles := some (day.targetMuscles.getD [])
    completed := none
    completedAt := day.completedAt
    exercises := some ((day.exercises.getD []).map serveExercise) }

/-- Every exercise the main formatting path emits has at least 3 steps. -/
theorem formatExercise_steps_ge_three (dayIndex exIndex : Nat) (ex : RawExercise) :
    3 ≤ (formatExercise dayIndex exIndex ex).steps.length := by
  show 3 ≤ (match ex.steps with
    | some ss =>
        if 3 ≤ ss.length then
          ss.enum.map (fun p : Nat × RawStep => formatStep p.1 p.2)
        else defaultSteps.take 4
    | none => defaultSteps.take 4).length
  cases hs : ex.steps with
  | none => decide
  | some ss =>
    simp only []
    by_cases h3 : 3 ≤ ss.length
    · rw [if_pos h3]
      simpa [List.enum_length] using h3
    · rw [if_neg h3]
      decide

/-- Every exercise the serving conversion emits has at least 2 steps. -/
theorem serveExercise_steps_ge_two (ex : Exercise) :
    2 ≤ (serveExercise ex).steps.length := by
  show 2 ≤ (if 2 ≤ ex.steps.length then ex.steps else defaultSteps).length
  by_cases h : 2 ≤ ex.steps.length
  · rw [if_pos h]
    exact h
  · rw [if_neg h]
    decide

def c6RawStep : RawStep :=
  { title := some "Only step", description := none, duration := some 60 }

def c6RawExercise : RawExercise :=
  { id := some "fx-1", name := some "Pushup", sets := some "3 x 12",
    note := none, badge := none, badgeColor := none, borderColor := none,
    steps := some [c6RawStep] }

def c6RawDay : RawDay :=
  { title := some "Fallback Day", description := none, type := none,
    typeColor := none, duration := none, caloriesBurn := none,
    targetMuscles := some ["chest"], exercises := some [c6RawExercise] }

def c6Exercise2steps : Exercise :=
  { id := "s1", name := "Row", sets := "4 x 8", note := "", badge := none,
    badgeColor := none, borderColor := "#3A2A4A", completed := false,
    steps := defaultSteps.take 2 }

def c6StoredDay : PlanDay :=
  mkDay 1 (some DayStatus.today) (some [c6Exercise2steps])

/-- C6 as stated is false on two paths.  The cold-start generator's gpt-4o
fallback (lines 4561-4567) spreads each raw day verbatim, overriding only
`day` and `status`: a provider exercise with a single step is returned with
that single step, no backfill.  And the weekly serving conversion (line
4075) backfills only exercises with fewer than 2 steps, while
`isPlanComplete` (line 3953) also accepts 2 steps, so a stored exercise
with exactly 2 steps is served with 2 steps. -/
theorem C6_counterexample :
    fallbackPlanDays (some [c6RawDay]) =
      [{ day := 1, status := DayStatus.today, orig := c6RawDay }]
    ∧ c6RawDay.exercises = some [c6RawExercise]
    ∧ c6RawExercise.steps = some [c6RawStep]
    ∧ ¬ 3 ≤ [c6RawStep].length
    ∧ isPlanComplete [c6StoredDay, c6StoredDay, c6StoredDay] = true
    ∧ ((serveDay c6StoredDay).exercises.getD []).map (fun e => e.steps.length)
        = [2]
    ∧ ¬ 3 ≤ 2 := by
  refine ⟨rfl, rfl, rfl, by decide, by decide, rfl, by decide⟩

/-- C6 amended: the main cold-start and progressive formatting passes do
enforce the invariant — every exercise they emit has at least 3 steps
(4 default steps are substituted whenever the provider gave fewer than 3).
The gpt-4o fallback path and the serving path do not: the fallback stores
provider exercises verbatim, and serving only guarantees at least 2 steps
per served exercise. -/
theorem C6_amended_main_paths_repair_steps :
    (∀ days d, d ∈ formatGeneratedDays days → ∀ exs, d.exercises = some exs →
      ∀ e, e ∈ exs → 3 ≤ e.steps.length)
    ∧ (∀ days d, d ∈ formatNextWeekDays days → ∀ exs, d.exercises = some exs →
      ∀ e, e ∈ exs → 3 ≤ e.steps.length)
    ∧ (∀ (stored : List PlanDay) d, d ∈ stored.map serveDay →
      ∀ exs, d.exercises = some exs → ∀ e, e ∈ exs → 2 ≤ e.steps.length) := by
  refine ⟨?_, ?_, ?_⟩
  · intro days d hd exs hexs e he
    obtain ⟨p, hp, rfl⟩ := List.mem_map.mp hd
    have h2 : (some ((p.2.exercises.getD []).enum.map
        (fun q : Nat × RawExercise => formatExercise p.1 q.1 q.2)) :
        Option (List Exercise)) = some exs := hexs
    rw [← Option.some.inj h2] at he
    obtain ⟨q, hq, rfl⟩ := List.mem_map.mp he
    exact formatExercise_steps_ge_three _ _ _
  · intro days d hd exs hexs e he
    obtain ⟨p, hp, rfl⟩ := List.mem_map.mp hd
    have h2 : (some ((p.2.exercises.getD []).enum.map
        (fun q : Nat × RawExercise => formatExercise p.1 q.1 q.2)) :
        Option (List Exercise)) = some exs := hexs
    rw [← Option.some.inj h2] at he
    obtain ⟨q, hq, rfl⟩ := List.mem_map.mp he
    exact formatExercise_steps_ge_three _ _ _
  · intro stored d hd exs hexs e he
    obtain ⟨d0, hd0, rfl⟩ := List.mem_map.mp hd
    have h2 : (some ((d0.exercises.getD []).map serveExercise) :
        Option (List Exercise)) = some exs := hexs
    rw [← Option.some.inj h2] at he
    obtain ⟨e0, he0, rfl⟩ := List.mem_map.mp he
    exact serveExercise_steps_ge_two e0

/-- Witness for the amended C6: the cold-start formatter backfills the
1-step raw exercise to at least 3 steps, and the serving conversion keeps
at least 2 steps on a stored 2-step exercise. -/
theorem C6_amended_main_paths_repair_steps_witness :
    3 ≤ (formatExercise 0 0 c6RawExercise).steps.length
    ∧ 2 ≤ (serveExercise c6Exercise2steps).steps.length :=
  ⟨C6_amended_main_paths_repair_steps.1 (some [c6RawDay])
      ((formatGeneratedDays (some [c6RawDay])).head (by decide))
      (by decide)
      ((c6RawDay.exercises.getD []).enum.map
        (fun q : Nat × RawExercise => formatExercise 0 q.1 q.2))
      (by rfl)
      (formatExercise 0 0 c6RawExercise)
      (by decide),
   C6_amended_main_paths_repair_steps.2.2 [c6StoredDay] (serveDay c6StoredDay)
      (by decide)
      ((c6StoredDay.exercises.getD []).map serveExercise)
      (by rfl)
      (serveExercise c6Exercise2steps)
      (by decide)⟩

/-! ## Identity Consistency Checker
(src/server.js lines 3666-3734 `verifyUserIdentity`, 3741-3763 the identity
block of `POST /api/scan/analyze`) -/

/-- The JSON object parsed from the identity provider's reply; any field may
be missing. -/
structure ParsedIdentity where
  isSamePerson : Option Bool
  confidence : Option Int
  reason : Option String
deriving DecidableEq, Repr

/-- The identity-provider call as the checker sees it: either the request,
response or `JSON.parse` threw, or a JSON object was parsed. -/
inductive IdentityProviderOutcome
  | errored (msg : String)
  | parsed (r : ParsedIdentity)
deriving DecidableEq, Repr

/-- What `verifyUserIdentity` returns. -/
structure IdentityResult where
  isSamePerson : Option Bool
  confidence : Option Int
  reason : Option String
  error : Option String
deriving DecidableEq, Repr

/-- `verifyUserIdentity`: skip (accept) without an API key, skip when either
photo is missing (absent or empty, both falsy), accept on any thrown error,
and otherwise relay the parsed verdict verbatim — including a missing
`isSamePerson` field. -/
def verifyUserIdentity (hasKey : Bool) (newFrontPhoto previousFrontPhoto : Option String)
    (provider : IdentityProviderOutcome) : IdentityResult :=
  if !hasKey then
    { isSamePerson := some true, confidence := none, reason := none, error := none }
  else if newFrontPhoto = none ∨ previousFrontPhoto = none then
    { isSamePerson := some true, confidence := none, reason := none, error := none }
  else
    match provider with
    | IdentityProviderOutcome.errored msg =>
        { isSamePerson := some true, confidence := none, reason := none,
          error := some msg }
    | IdentityProviderOutcome.parsed r =>
        { isSamePerson := r.isSamePerson, confidence := r.confidence,
          reason := r.reason, error := none }

/-- The scan endpoint's decision for the identity block. -/
inductive ScanIdentityDecision
  | reject (confidence : Option Int)
  | proceed
deriving DecidableEq, Repr

/-- The identity block of `POST /api/scan/analyze`: no check without a
`userId` or without a previous scan carrying a front photo URL; otherwise
reject when `!identityCheck.isSamePerson` — i.e. whenever the relayed field
is anything other than `true`. -/
def scanIdentityGate (userId : Option String) (previousScanFrontUrl : Option String)
    (hasKey : Bool) (frontPhoto : Option String)
    (provider : IdentityProviderOutcome) : ScanIdentityDecision :=
  match userId with
  | none => ScanIdentityDecision.proceed
  | some _ =>
      match previousScanFrontUrl with
      | none => ScanIdentityDecision.proceed
      | some prev =>
          let check := verifyUserIdentity hasKey frontPhoto (some prev) provider
          if check.isSamePerson = some true then ScanIdentityDecision.proceed
          else ScanIdentityDecision.reject check.confidence

/-- C8's final clause is false: a submission can be rejected without any
explicit provider verdict that the subject differs.  When the provider's
reply parses but carries no `isSamePerson` field, `!identityCheck.isSamePerson`
is true in JavaScript and the scan is rejected with HTTP 400. -/
theorem C8_counterexample :
    scanIdentityGate (some "u1") (some "prevUrl") true (some "newPhoto")
        (IdentityProviderOutcome.parsed
          { isSamePerson := none, confidence := some 55, reason := some "unclear" })
      = ScanIdentityDecision.reject (some 55)
    ∧ ({ isSamePerson := none, confidence := some 55,
         reason := some "unclear" } : ParsedIdentity).isSamePerson ≠ some false := by
  exact ⟨rfl, by decide⟩

/-- C8 amended: the checker fails open — a missing previous accepted front
image, a missing API key, a missing submitted photo, or any provider error
all yield accept and the submission proceeds.  With a previous image and a
parsed provider reply, the submission proceeds exactly when the reply's
`isSamePerson` field is literally `true`; it is rejected whenever the field
is `false` **or missing**, not only on an explicit mismatch verdict. -/
theorem C8_amended_fail_open_reject_on_non_true (uid : String)
    (prevUrl : Option String) (hasKey : Bool) (frontPhoto : Option String)
    (provider : IdentityProviderOutcome) (r : ParsedIdentity) (msg : String) :
    (∀ u hk fp pr, scanIdentityGate u none hk fp pr = ScanIdentityDecision.proceed)
    ∧ (prevUrl = none →
        scanIdentityGate (some uid) prevUrl hasKey frontPhoto provider
          = ScanIdentityDecision.proceed)
    ∧ scanIdentityGate (some uid) (some "prev") hasKey frontPhoto
        (IdentityProviderOutcome.errored msg) = ScanIdentityDecision.proceed
    ∧ scanIdentityGate (some uid) (some "prev") false frontPhoto provider
        = ScanIdentityDecision.proceed
    ∧ (r.isSamePerson = some true →
        scanIdentityGate (some uid) (some "prev") true (some "photo")
          (IdentityProviderOutcome.parsed r) = ScanIdentityDecision.proceed)
    ∧ (r.isSamePerson ≠ some true →
        scanIdentityGate (some uid) (some "prev") true (some "photo")
          (IdentityProviderOutcome.parsed r)
          = ScanIdentityDecision.reject r.confidence) := by
  refine ⟨?_, ?_, ?_, ?_, ?_, ?_⟩
  · intro u hk fp pr
    cases u <;> rfl
  · intro h
    subst h
    rfl
  · cases hasKey with
    | false => rfl
    | true => cases frontPhoto <;> rfl
  · rfl
  · intro h
    have hcheck : verifyUserIdentity true (some "photo") (some "prev")
        (IdentityProviderOutcome.parsed r) =
        { isSamePerson := r.isSamePerson, confidence := r.confidence,
          reason := r.reason, error := none } := by
      unfold verifyUserIdentity
      rw [if_neg (by simp), if_neg (by simp)]
    unfold scanIdentityGate
    simp only []
    rw [hcheck]
    simp [h]
  · intro h
    have hcheck : verifyUserIdentity true (some "photo") (some "prev")
        (IdentityProviderOutcome.parsed r) =
        { isSamePerson := r.isSamePerson, confidence := r.confidence,
          reason := r.reason, error := none } := by
      unfold verifyUserIdentity
      rw [if_neg (by simp), if_neg (by simp)]
    unfold scanIdentityGate
    simp only []
    rw [hcheck]
    simp [h]

/-- Witness for the amended C8 at concrete inputs: provider error proceeds,
explicit same-person verdict proceeds. -/
theorem C8_amended_fail_open_reject_on_non_true_witness :
    scanIdentityGate (some "u1") (some "prev") true (some "p")
        (IdentityProviderOutcome.errored "timeout") = ScanIdentityDecision.proceed
    ∧ scanIdentityGate (some "u1") (some "prev") true (some "photo")
        (IdentityProviderOutcome.parsed
          { isSamePerson := some true, confidence := some 90, reason := none })
        = ScanIdentityDecision.proceed :=
  ⟨(C8_amended_fail_open_reject_on_non_true "u1" none true (some "p")
      (IdentityProviderOutcome.errored "timeout")
      { isSamePerson := some true, confidence := some 90, reason := none }
      "timeout").2.2.1,
   (C8_amended_fail_open_reject_on_non_true "u1" none true (some "photo")
      (IdentityProviderOutcome.errored "x")
      { isSamePerson := some true, confidence := some 90, reason := none }
      "x").2.2.2.2.1 rfl⟩

/-! ## Background Asset Queue
(src/server.js lines 5154-5323: `aiImageCache`, `backgroundImageQueue`,
`generateAIImagesForExercise`, `processBackgroundQueue`,
`POST /api/workout/generate-exercise-image`)

Time is explicit: every provider call is an event with a start and finish
instant (milliseconds); the oracle maps the running call counter to the
call's duration and success.  The single drain loop is a pure function of
the queue, cache, start instant, and oracle — faithful because the
`isProcessingBackgroundQueue` flag is checked and set without any
intervening `await`, so at most one drain runs at a time. -/

/-- ASCII lower-casing of one character (`String.prototype.toLowerCase`
restricted to the ASCII exercise names at play). -/
def charToLower (c : Char) : Char :=
  if 'A' ≤ c ∧ c ≤ 'Z' then Char.ofNat (c.toNat + 32) else c

def isSpaceChar (c : Char) : Bool :=
  c = ' ' || c = '\t' || c = '\n' || c = '\r'

/-- `exerciseName.toLowerCase().trim()`, character-wise. -/
def normalizeExerciseName (s : String) : String :=
  String.mk ((((s.data.map charToLower).dropWhile
    isSpaceChar).reverse.dropWhile isSpaceChar).reverse)

/-- Line 5247: `setTimeout(resolve, 20000)` between phase calls. -/
def imageWaitMs : Nat := 20000

/-- Line 5283: `setTimeout(resolve, 30000)` between queued exercises. -/
def queueWaitMs : Nat := 30000

/-- The 20-second wait applies only when more phases remain
(`if (i < phases.length - 1)`). -/
def interPhaseWait (rest : List String) : Nat :=
  match rest with
  | [] => 0
  | _ :: _ => imageWaitMs

/-- An entry of `backgroundImageQueue`. -/
structure QItem where
  exerciseName : String
  exerciseId : String
deriving DecidableEq, Repr

/-- The 30-second wait applies only when the queue is still non-empty
(`if (backgroundImageQueue.length > 0)`). -/
def interItemWait (rest : List QItem) : Nat :=
  match rest with
  | [] => 0
  | _ :: _ => queueWaitMs

/-- One provider (DALL-E) call as the scheduler sees it. -/
structure ProviderCallSpec where
  duration : Nat
  ok : Bool
deriving DecidableEq, Repr

/-- A provider call that actually happened, with its wall-clock interval. -/
structure CallEvent where
  key : String
  phase : String
  start : Nat
  finish : Nat
deriving DecidableEq, Repr

/-- Result of one `generateAIImagesForExercise` run. -/
structure GenRun where
  events : List CallEvent
  time : Nat
  nextCall : Nat
  ok : Bool
deriving DecidableEq, Repr

/-- The three phases generated per exercise (lines 5203-5207). -/
def imagePhases : List String := ["start", "middle", "end"]

/-- The phase loop of `generateAIImagesForExercise` (lines 5211-5253): each
successful call is followed by a 20-second wait unless it was the last
phase; the first failure aborts immediately (partial results discarded). -/
def runPhases (oracle : Nat → ProviderCallSpec) (key : String) :
    List String → Nat → Nat → GenRun
  | [], t, k => { events := [], time := t, nextCall := k, ok := true }
  | p :: rest, t, k =>
      let c := oracle k
      let ev : CallEvent := { key := key, phase := p, start := t, finish := t + c.duration }
      if c.ok then
        let r := runPhases oracle key rest (t + c.duration + interPhaseWait rest) (k + 1)
        { events := ev :: r.events, time := r.time, nextCall := r.nextCall, ok := r.ok }
      else
        { events := [ev], time := t + c.duration, nextCall := k + 1, ok := false }

/-- `generateAIImagesForExercise` (lines 5162-5263): a cache hit makes no
calls; otherwise the three phases run, and the result is cached only when
all three succeeded (`images.length === 3`). -/
def generateAIImagesForExercise (oracle : Nat → ProviderCallSpec)
    (cache : List String) (exerciseName : String) (t k : Nat) :
    GenRun × List String :=
  let cacheKey := normalizeExerciseName exerciseName
  if cache.contains cacheKey then
    ({ events := [], time := t, nextCall := k, ok := true }, cache)
  else
    let r := runPhases oracle cacheKey imagePhases t k
    (r, if r.ok then cache ++ [cacheKey] else cache)

/-- Result of one drain of the background queue. -/
structure DrainRun where
  events : List CallEvent
  cache : List String
  time : Nat
  nextCall : Nat
deriving DecidableEq, Repr

/-- `processBackgroundQueue` (lines 5266-5289): shift items one at a time,
skip cached keys without waiting, and wait 30 seconds after an exercise
when the queue is still non-empty. -/
def processBackgroundQueue (oracle : Nat → ProviderCallSpec) :
    List QItem → List String → Nat → Nat → DrainRun
  | [], cache, t, k => { events := [], cache := cache, time := t, nextCall := k }
  | item :: rest, cache, t, k =>
      let cacheKey := normalizeExerciseName item.exerciseName
      if cache.contains cacheKey then
        processBackgroundQueue oracle rest cache t k
      else
        let g := generateAIImagesForExercise oracle cache item.exerciseName t k
        let d := processBackgroundQueue oracle rest g.2
          (g.1.time + interItemWait rest) g.1.nextCall
        { events := g.1.events ++ d.events, cache := d.cache,
          time := d.time, nextCall := d.nextCall }

/-- The producer endpoint's state effect (lines 5300-5323). -/
structure ImageRequestResult where
  badRequest : Bool
  cached : Bool
  queue : List QItem
deriving DecidableEq, Repr

/-- `POST /api/workout/generate-exercise-image`: a cache hit returns the
cached entry and enqueues nothing; otherwise the name is enqueued unless
already queued (or no API key), and stock placeholders are returned. -/
def handleGenerateExerciseImage (hasKey : Bool) (cache : List String)
    (queue : List QItem) (exerciseName exerciseId : String) : ImageRequestResult :=
  if exerciseName = "" then
    { badRequest := true, cached := false, queue := queue }
  else
    let cacheKey := normalizeExerciseName exerciseName
    if cache.contains cacheKey then
      { badRequest := false, cached := true, queue := queue }
    else
      let already := queue.any (fun q => normalizeExerciseName q.exerciseName == cacheKey)
      if hasKey && !already then
        { badRequest := false, cached := false,
          queue := queue ++ [{ exerciseName := exerciseName, exerciseId := exerciseId }] }
      else
        { badRequest := false, cached := false, queue := queue }

/-- Two calls are spaced: the later starts at least 20 seconds after the
earlier finished. -/
def callGap (e1 e2 : CallEvent) : Prop := e1.finish + imageWaitMs ≤ e2.start

theorem runPhases_invariants (oracle : Nat → ProviderCallSpec) (key : String)
    (phases : List String) (t k : Nat) :
    (∀ e ∈ (runPhases oracle key phases t k).events,
        t ≤ e.start ∧ e.finish ≤ (runPhases oracle key phases t k).time)
    ∧ t ≤ (runPhases oracle key phases t k).time
    ∧ List.Pairwise callGap (runPhases oracle key phases t k).events := by
  induction phases generalizing t k with
  | nil => simp [runPhases]
  | cons p rest ih =>
    by_cases hok : (oracle k).ok = true
    · simp only [runPhases, if_pos hok]
      obtain ⟨ihb, iht, ihp⟩ := ih (t + (oracle k).duration + interPhaseWait rest) (k + 1)
      refine ⟨?_, ?_, ?_⟩
      · intro e he
        rcases List.mem_cons.mp he with he | he
        · subst he
          refine ⟨le_refl t, ?_⟩
          show t + (oracle k).duration ≤ _
          omega
        · have := ihb e he
          exact ⟨by omega, this.2⟩
      · omega
      · rw [List.pairwise_cons]
        refine ⟨?_, ihp⟩
        intro e he
        have hstart := (ihb e he).1
        show t + (oracle k).duration + imageWaitMs ≤ e.start
        cases rest with
        | nil =>
          exact absurd he (by simp [runPhases])
        | cons p2 rest2 =>
          simp only [interPhaseWait] at hstart
          omega
    · simp only [runPhases, if_neg hok]
      refine ⟨?_, by omega, by simp⟩
      intro e he
      simp only [List.mem_singleton] at he
      subst he
      refine ⟨le_refl t, ?_⟩
      show t + (oracle k).duration ≤ t + (oracle k).duration
      omega

theorem processBackgroundQueue_invariants (oracle : Nat → ProviderCallSpec)
    (q : List QItem) (cache : List String) (t k : Nat) :
    (∀ e ∈ (processBackgroundQueue oracle q cache t k).events,
        t ≤ e.start ∧ e.finish ≤ (processBackgroundQueue oracle q cache t k).time)
    ∧ t ≤ (processBackgroundQueue oracle q cache t k).time
    ∧ List.Pairwise callGap (processBackgroundQueue oracle q cache t k).events := by
  induction q generalizing cache t k with
  | nil => simp [processBackgroundQueue]
  | cons item rest ih =>
    by_cases hc : cache.contains (normalizeExerciseName item.exerciseName) = true
    · simp only [processBackgroundQueue, if_pos hc]
      exact ih cache t k
    · have hg : generateAIImagesForExercise oracle cache item.exerciseName t k =
          (runPhases oracle (normalizeExerciseName item.exerciseName) imagePhases t k,
           if (runPhases oracle (normalizeExerciseName item.exerciseName)
               imagePhases t k).ok then
             cache ++ [normalizeExerciseName item.exerciseName]
           else cache) := by
        unfold generateAIImagesForExercise
        rw [if_neg hc]
      simp only [processBackgroundQueue, if_neg hc, hg]
      obtain ⟨rb, rt, rp⟩ := runPhases_invariants oracle
        (normalizeExerciseName item.exerciseName) imagePhases t k
      obtain ⟨db, dt, dp⟩ := ih
        (if (runPhases oracle (normalizeExerciseName item.exerciseName)
            imagePhases t k).ok then
          cache ++ [normalizeExerciseName item.exerciseName]
        else cache)
        ((runPhases oracle (normalizeExerciseName item.exerciseName)
          imagePhases t k).time + interItemWait rest)
        (runPhases oracle (normalizeExerciseName item.exerciseName)
          imagePhases t k).nextCall
      refine ⟨?_, ?_, ?_⟩
      · intro e he
        rcases List.mem_append.mp he with he | he
        · have hb := rb e he
          refine ⟨hb.1, ?_⟩
          have := hb.2
          omega
        · have hb := db e he
          exact ⟨by omega, hb.2⟩
      · omega
      · rw [List.pairwise_append]
        refine ⟨rp, dp, ?_⟩
        intro e1 he1 e2 he2
        have h1 := (rb e1 he1).2
        have h2 := (db e2 he2).1
        show e1.finish + imageWaitMs ≤ e2.start
        cases rest with
        | nil =>
          exact absurd he2 (by simp [processBackgroundQueue])
        | cons i2 rest2 =>
          simp only [interItemWait] at h2
          have hw : imageWaitMs ≤ queueWaitMs := by decide
          omega

/-- C9 amended: within a single drain of the background queue, every two
provider calls — in particular two calls for the same normalized exercise
name — are separated by at least the 20-second minimum from the end of the
earlier call (30 seconds between exercises); and a request whose normalized
name is cached returns the cached entry and enqueues nothing.  No spacing
is enforced **across** drains: the loop keeps no last-call timestamp, so
once the queue empties a new request may start a new drain immediately. -/
theorem C9_amended_spacing_within_single_drain :
    (∀ (oracle : Nat → ProviderCallSpec) (q : List QItem) (cache : List String)
        (t k : Nat),
      List.Pairwise callGap (processBackgroundQueue oracle q cache t k).events)
    ∧ (∀ (hasKey : Bool) (cache : List String) (queue : List QItem)
        (name id : String), name ≠ "" →
        cache.contains (normalizeExerciseName name) = true →
        handleGenerateExerciseImage hasKey cache queue name id =
          { badRequest := false, cached := true, queue := queue }) := by
  constructor
  · intro oracle q cache t k
    exact (processBackgroundQueue_invariants oracle q cache t k).2.2
  · intro hasKey cache queue name id hname hcache
    unfold handleGenerateExerciseImage
    rw [if_neg hname]
    simp only []
    rw [if_pos hcache]

def c9OracleFail : Nat → ProviderCallSpec := fun _ => { duration := 1000, ok := false }

def c9Item : QItem := { exerciseName := "Squat", exerciseId := "e9" }

/-- C9 as stated is false across drains.  A drain of the queue holding
`Squat` makes one provider call that fails at instant 1000; the failure is
not cached and the drain exits.  A request at instant 2000 re-enqueues the
same name (cache miss, queue empty) and starts a new drain, whose first
provider call for the same key starts at 2000 — only 1000 ms after the
previous call for that key ended, below even the 15-second floor the
specification quotes, because the loop keeps no cross-drain timestamp. -/
theorem C9_counterexample :
    (processBackgroundQueue c9OracleFail [c9Item] [] 0 0).events =
      [{ key := "squat", phase := "start", start := 0, finish := 1000 }]
    ∧ (processBackgroundQueue c9OracleFail [c9Item] [] 0 0).cache = []
    ∧ handleGenerateExerciseImage true [] [] "Squat" "e9" =
        { badRequest := false, cached := false, queue := [c9Item] }
    ∧ (processBackgroundQueue c9OracleFail [c9Item] [] 2000 1).events =
      [{ key := "squat", phase := "start", start := 2000, finish := 3000 }]
    ∧ 2000 < 1000 + 15000 := by
  refine ⟨by decide, by decide, by decide, by decide, by decide⟩

/-- Witness for the amended C9: the spacing holds inside one concrete drain
of two distinct uncached exercises, and a concrete cache hit returns
without enqueuing. -/
theorem C9_amended_spacing_within_single_drain_witness :
    List.Pairwise callGap (processBackgroundQueue c9OracleFail
      [c9Item, { exerciseName := "Row", exerciseId := "e10" }] [] 0 0).events
    ∧ handleGenerateExerciseImage true ["squat"] [] "Squat" "e9" =
        { badRequest := false, cached := true, queue := [] } :=
  ⟨C9_amended_spacing_within_single_drain.1 c9OracleFail
      [c9Item, { exerciseName := "Row", exerciseId := "e10" }] [] 0 0,
   C9_amended_spacing_within_single_drain.2 true ["squat"] [] "Squat" "e9"
      (by decide) (by decide)⟩

end Mog
